import Mathlib

/-!
Shallow embedding of `scripts/mitmproxy-addon.py` (the routing addon of the
co-cddo/ndx repository).

Python strings are embedded as `List Char`; the mitmproxy header multidicts
(ordered, case-insensitive keys) are embedded as ordered association lists of
name/value pairs.  The flow's target host (`flow.request.pretty_host`, which
is also the field the `RoutedToLocal` branch rewrites via `flow.request.host`)
is the `host` field of the `Flow` structure, following the spec's data model
where the Flow carries a single target-host attribute.  The metadata entry
`flow.metadata["locally_routed"]` is the `locally_routed` Boolean field
(absent = `false`).  The routing decision - observable in the source as the
branch taken by `request()` and its distinct log lines - is returned by the
embedded `request` as an `Option RoutingDecision` alongside the mutated flow.
-/

set_option autoImplicit false

namespace NdxAddon

/-- Python `str`, embedded as a list of characters. -/
abbrev Str := List Char

/-- Ordered list of header name/value pairs (mitmproxy `Headers`). -/
abbrev Headers := List (Str × Str)

/-- Case-normalisation used for header-name comparison (mitmproxy header
keys compare case-insensitively). -/
def lower (s : Str) : Str := s.map Char.toLower

/-- Python `request_path.startswith(ui_pattern)`: `startswith s p` is true
iff `p` is a literal prefix of `s`. -/
def startswith : Str → Str → Bool
  | _, [] => true
  | [], _ :: _ => false
  | c :: s, d :: p => if c = d then startswith s p else false

/-- First value stored under a header name, compared case-insensitively
(mitmproxy `headers.get`). -/
def getHeader : Headers → Str → Option Str
  | [], _ => none
  | (n, w) :: rest, k => if lower n = lower k then some w else getHeader rest k

/-- Remove every entry whose name matches `k` case-insensitively. -/
def eraseHeader (k : Str) : Headers → Headers
  | [] => []
  | (n, w) :: rest =>
    if lower n = lower k then eraseHeader k rest else (n, w) :: eraseHeader k rest

/-- mitmproxy `headers[k] = v`: replace the first entry whose name matches
`k` case-insensitively with `(k, v)` and drop any later matches; append
`(k, v)` when no entry matches. -/
def setHeader : Headers → Str → Str → Headers
  | [], k, v => [(k, v)]
  | (n, w) :: rest, k, v =>
    if lower n = lower k then (k, v) :: eraseHeader k rest
    else (n, w) :: setHeader rest k v

/-- Configuration constant `CLOUDFRONT_DOMAIN`. -/
def CLOUDFRONT_DOMAIN : Str := "ndx.digital.cabinet-office.gov.uk".toList

/-- Configuration constant `LOCAL_SERVER_HOST`. -/
def LOCAL_SERVER_HOST : Str := "localhost".toList

/-- Configuration constant `LOCAL_SERVER_PORT`. -/
def LOCAL_SERVER_PORT : Nat := 8080

/-- Name of the first `SECURITY_HEADERS` entry. -/
def cspName : Str := "content-security-policy".toList

/-- Value of the first `SECURITY_HEADERS` entry (the concatenated CSP
string of the source). -/
def cspValue : Str :=
  ("upgrade-insecure-requests; default-src 'none'; object-src 'none'; "
   ++ "script-src 'self'; style-src 'self'; img-src 'self' data:; "
   ++ "font-src 'self' data:; connect-src 'self'; manifest-src 'self'; "
   ++ "frame-ancestors 'none'; base-uri 'none';").toList

/-- Name of the second `SECURITY_HEADERS` entry. -/
def xfoName : Str := "x-frame-options".toList

/-- Value of the second `SECURITY_HEADERS` entry. -/
def xfoValue : Str := "DENY".toList

/-- Name of the third `SECURITY_HEADERS` entry. -/
def xctoName : Str := "x-content-type-options".toList

/-- Value of the third `SECURITY_HEADERS` entry. -/
def xctoValue : Str := "nosniff".toList

/-- Name of the fourth `SECURITY_HEADERS` entry. -/
def rpName : Str := "referrer-policy".toList

/-- Value of the fourth `SECURITY_HEADERS` entry. -/
def rpValue : Str := "no-referrer".toList

/-- The `SECURITY_HEADERS` dict, in its Python insertion order. -/
def SECURITY_HEADERS : Headers :=
  [ (cspName, cspValue),
    (xfoName, xfoValue),
    (xctoName, xctoValue),
    (rpName, rpValue) ]

/-- The `UI_ROUTES` table, in source order. -/
def UI_ROUTES : List Str :=
  [ "/".toList,
    "/catalogue".toList,
    "/catalogue/".toList,
    "/try".toList,
    "/assets/".toList ]

/-- The literal `/api/` prefix tested by `request()`. -/
def apiRoute : Str := "/api/".toList

/-- The literal header name `Host` used by `request()`. -/
def hostHeaderName : Str := "Host".toList

/-- The literal scheme `http` the `RoutedToLocal` branch installs. -/
def localScheme : Str := "http".toList

/-- One pattern test of the matching loop:
`ui_pattern == request_path or request_path.startswith(ui_pattern)`. -/
def matches_route (pat p : Str) : Bool := pat == p || startswith p pat

/-- The matching loop of `request()` over a given route table: sets
`is_ui_route` iff some pattern matches (the loop breaks at the first
match, so its result is exactly existence of a match). -/
def classify_ui (routes : List Str) (p : Str) : Bool :=
  routes.any (fun pat => matches_route pat p)

/-- The routing decision attached to a Flow, as described by the spec and
observable in the source as the branch `request()` takes (each branch logs
a distinct message; the `RoutedToLocal` branch additionally stores the
`locally_routed` metadata flag). -/
inductive RoutingDecision
  | PassthroughApi
  | RoutedToLocal
  | PassthroughOther
deriving DecidableEq, Repr

/-- One request/response exchange, following the spec's data model: target
host, port, scheme, path, request headers, response headers, plus the
`locally_routed` metadata flag written by the source. -/
structure Flow where
  scheme : Str
  host : Str
  port : Nat
  path : Str
  requestHeaders : Headers
  responseHeaders : Headers
  locally_routed : Bool
deriving DecidableEq, Repr

/-- The `request(flow)` callback: domain gate, `/api/` passthrough, UI-route
rewrite to the local server (capturing the Host header before mutation and
restoring it after), else passthrough.  Returns the mutated flow together
with the routing decision (`none` when the domain gate fails). -/
def request (f : Flow) : Flow × Option RoutingDecision :=
  if f.host ≠ CLOUDFRONT_DOMAIN then
    (f, none)
  else if startswith f.path apiRoute then
    (f, some RoutingDecision.PassthroughApi)
  else if classify_ui UI_ROUTES f.path then
    (  { f with
          scheme := localScheme,
          host := LOCAL_SERVER_HOST,
          port := LOCAL_SERVER_PORT,
          requestHeaders :=
            setHeader f.requestHeaders hostHeaderName
              ((getHeader f.requestHeaders hostHeaderName).getD CLOUDFRONT_DOMAIN),
          locally_routed := true },
      some RoutingDecision.RoutedToLocal)
  else
    (f, some RoutingDecision.PassthroughOther)

/-- Fold of `response()`'s header-injection loop over `SECURITY_HEADERS`. -/
def injectHeaders (hs : Headers) : Headers :=
  SECURITY_HEADERS.foldl (fun h kv => setHeader h kv.1 kv.2) hs

/-- The `response(flow)` callback: when the `locally_routed` metadata flag is
set, overwrite each security header on the response; otherwise do nothing. -/
def response (f : Flow) : Flow :=
  if f.locally_routed then
    { f with responseHeaders := injectHeaders f.responseHeaders }
  else
    f

/-- The host proxy attaches the upstream response to the flow between the
request phase and the response phase. -/
def withResponse (f : Flow) (resp : Headers) : Flow :=
  { f with responseHeaders := resp }

/-- No entry of `hs` has a name matching `k` case-insensitively. -/
def keyAbsent (k : Str) : Headers → Bool
  | [] => true
  | (n, _) :: rest => !(lower n == lower k) && keyAbsent k rest

/-- The first entry of `hs` matching `k` case-insensitively is literally
`(k, v)` and no later entry matches `k`: the state `setHeader` leaves a
header in. -/
def isSetTo (k v : Str) : Headers → Bool
  | [] => false
  | (n, w) :: rest =>
    if lower n = lower k then n == k && w == v && keyAbsent k rest
    else isSetTo k v rest

/-- True iff `n` matches some key of `SECURITY_HEADERS` case-insensitively. -/
def securityName (n : Str) : Bool :=
  SECURITY_HEADERS.any (fun kv => lower kv.1 == lower n)

/-- The `UI_ROUTES` table with the `"/catalogue/"` entry removed. -/
def UI_ROUTES_reduced : List Str := UI_ROUTES.erase "/catalogue/".toList

/-- Scenario 3 of the spec: an OAuth callback request to the production
domain. -/
def callbackFlow : Flow :=
  { scheme := "https".toList,
    host := CLOUDFRONT_DOMAIN,
    port := 443,
    path := "/callback?code=abc".toList,
    requestHeaders := [("Host".toList, CLOUDFRONT_DOMAIN)],
    responseHeaders := [],
    locally_routed := false }

/-- Scenario 1 of the spec: a catalogue page request to the production
domain. -/
def catalogueFlow : Flow :=
  { scheme := "https".toList,
    host := CLOUDFRONT_DOMAIN,
    port := 443,
    path := "/catalogue/widgets".toList,
    requestHeaders := [("Host".toList, CLOUDFRONT_DOMAIN)],
    responseHeaders := [],
    locally_routed := false }

/-- Scenario 2 of the spec: an API request to the production domain. -/
def apiFlow : Flow :=
  { scheme := "https".toList,
    host := CLOUDFRONT_DOMAIN,
    port := 443,
    path := "/api/v1/sessions".toList,
    requestHeaders := [("Host".toList, CLOUDFRONT_DOMAIN)],
    responseHeaders := [],
    locally_routed := false }

/-- Scenario 4 of the spec: a request to an unrelated domain. -/
def otherHostFlow : Flow :=
  { scheme := "https".toList,
    host := "other.example.com".toList,
    port := 443,
    path := "/".toList,
    requestHeaders := [("Host".toList, "other.example.com".toList)],
    responseHeaders := [],
    locally_routed := false }

/-- A response-header list from the local backend containing a
non-security header, used by witnesses. -/
def sampleResp : Headers :=
  [("set-cookie".toList, "a=b".toList),
   ("content-type".toList, "text/html".toList)]

/-! ## Header-algebra lemmas -/

theorem keyAbsent_eraseHeader_self (k : Str) (hs : Headers) :
    keyAbsent k (eraseHeader k hs) = true := by
  induction hs with
  | nil => rfl
  | cons p rest ih =>
    obtain ⟨n, w⟩ := p
    by_cases h : lower n = lower k
    · simp [eraseHeader, h, ih]
    · simp [eraseHeader, h, keyAbsent, ih]

theorem eraseHeader_of_keyAbsent (k : Str) (hs : Headers)
    (h : keyAbsent k hs = true) : eraseHeader k hs = hs := by
  induction hs with
  | nil => rfl
  | cons p rest ih =>
    obtain ⟨n, w⟩ := p
    simp only [keyAbsent, Bool.and_eq_true, Bool.not_eq_true'] at h
    simp [eraseHeader, (by simpa using h.1 : lower n ≠ lower k), ih h.2]

theorem keyAbsent_eraseHeader (k k' : Str) (hs : Headers)
    (h : keyAbsent k hs = true) : keyAbsent k (eraseHeader k' hs) = true := by
  induction hs with
  | nil => rfl
  | cons p rest ih =>
    obtain ⟨n, w⟩ := p
    simp only [keyAbsent, Bool.and_eq_true] at h
    by_cases h' : lower n = lower k'
    · simp [eraseHeader, h', ih h.2]
    · simp [eraseHeader, h', keyAbsent, h.1, ih h.2]

theorem keyAbsent_setHeader (k k' v' : Str) (hk : lower k ≠ lower k')
    (hs : Headers) (h : keyAbsent k hs = true) :
    keyAbsent k (setHeader hs k' v') = true := by
  induction hs with
  | nil => simp [setHeader, keyAbsent, Ne.symm hk]
  | cons p rest ih =>
    obtain ⟨n, w⟩ := p
    simp only [keyAbsent, Bool.and_eq_true] at h
    by_cases h' : lower n = lower k'
    · simp only [setHeader, if_pos h']
      simp [keyAbsent, Ne.symm hk, keyAbsent_eraseHeader k k' rest h.2]
    · simp only [setHeader, if_neg h']
      simp [keyAbsent, h.1, ih h.2]

theorem isSetTo_getHeader (k v : Str) (hs : Headers)
    (h : isSetTo k v hs = true) : getHeader hs k = some v := by
  induction hs with
  | nil => simp [isSetTo] at h
  | cons p rest ih =>
    obtain ⟨n, w⟩ := p
    by_cases hn : lower n = lower k
    · simp only [isSetTo, if_pos hn, Bool.and_eq_true, beq_iff_eq] at h
      simp [getHeader, hn, h.1.2]
    · simp only [isSetTo, if_neg hn] at h
      simp [getHeader, hn, ih h]

theorem setHeader_isSetTo (k v : Str) (hs : Headers) :
    isSetTo k v (setHeader hs k v) = true := by
  induction hs with
  | nil => simp [setHeader, isSetTo, keyAbsent]
  | cons p rest ih =>
    obtain ⟨n, w⟩ := p
    by_cases hn : lower n = lower k
    · simp [setHeader, hn, isSetTo, keyAbsent_eraseHeader_self]
    · simp [setHeader, hn, isSetTo, ih]

theorem isSetTo_eraseHeader (k v k' : Str) (hk : lower k ≠ lower k')
    (hs : Headers) (h : isSetTo k v hs = true) :
    isSetTo k v (eraseHeader k' hs) = true := by
  induction hs with
  | nil => simp [isSetTo] at h
  | cons p rest ih =>
    obtain ⟨n, w⟩ := p
    by_cases hn' : lower n = lower k'
    · have hn : ¬ lower n = lower k := fun e => hk (e.symm.trans hn')
      simp only [isSetTo, if_neg hn] at h
      simp only [eraseHeader, if_pos hn']
      exact ih h
    · simp only [eraseHeader, if_neg hn']
      by_cases hn : lower n = lower k
      · simp only [isSetTo, if_pos hn, Bool.and_eq_true] at h
        simp only [isSetTo, if_pos hn, Bool.and_eq_true]
        exact ⟨h.1, keyAbsent_eraseHeader k k' rest h.2⟩
      · simp only [isSetTo, if_neg hn] at h
        simp only [isSetTo, if_neg hn]
        exact ih h

theorem isSetTo_setHeader_ne (k v k' v' : Str) (hk : lower k ≠ lower k')
    (hs : Headers) (h : isSetTo k v hs = true) :
    isSetTo k v (setHeader hs k' v') = true := by
  induction hs with
  | nil => simp [isSetTo] at h
  | cons p rest ih =>
    obtain ⟨n, w⟩ := p
    by_cases hn' : lower n = lower k'
    · have hn : ¬ lower n = lower k := fun e => hk (e.symm.trans hn')
      simp only [isSetTo, if_neg hn] at h
      simp only [setHeader, if_pos hn']
      simp only [isSetTo, if_neg (Ne.symm hk)]
      exact isSetTo_eraseHeader k v k' hk rest h
    · simp only [setHeader, if_neg hn']
      by_cases hn : lower n = lower k
      · simp only [isSetTo, if_pos hn, Bool.and_eq_true] at h
        simp only [isSetTo, if_pos hn, Bool.and_eq_true]
        exact ⟨h.1, keyAbsent_setHeader k k' v' hk rest h.2⟩
      · simp only [isSetTo, if_neg hn] at h
        simp only [isSetTo, if_neg hn]
        exact ih h

theorem setHeader_of_isSetTo (k v : Str) (hs : Headers)
    (h : isSetTo k v hs = true) : setHeader hs k v = hs := by
  induction hs with
  | nil => simp [isSetTo] at h
  | cons p rest ih =>
    obtain ⟨n, w⟩ := p
    by_cases hn : lower n = lower k
    · simp only [isSetTo, if_pos hn, Bool.and_eq_true, beq_iff_eq] at h
      obtain ⟨⟨rfl, rfl⟩, hab⟩ := h
      simp [setHeader, hn, eraseHeader_of_keyAbsent _ _ hab]
    · simp only [isSetTo, if_neg hn] at h
      simp [setHeader, hn, ih h]

theorem getHeader_setHeader_self (hs : Headers) (k v : Str) :
    getHeader (setHeader hs k v) k = some v :=
  isSetTo_getHeader k v _ (setHeader_isSetTo k v hs)

theorem getHeader_eraseHeader_ne (k k' : Str) (hk : lower k' ≠ lower k)
    (hs : Headers) : getHeader (eraseHeader k' hs) k = getHeader hs k := by
  induction hs with
  | nil => rfl
  | cons p rest ih =>
    obtain ⟨n, w⟩ := p
    by_cases hn' : lower n = lower k'
    · simp only [eraseHeader, if_pos hn']
      rw [ih]
      simp only [getHeader, if_neg (fun e => hk (hn'.symm.trans e))]
    · simp only [eraseHeader, if_neg hn', getHeader]
      by_cases hn : lower n = lower k
      · simp [if_pos hn]
      · simp only [if_neg hn]
        exact ih

theorem getHeader_setHeader_ne (k k' v' : Str) (hk : lower k' ≠ lower k)
    (hs : Headers) : getHeader (setHeader hs k' v') k = getHeader hs k := by
  induction hs with
  | nil => simp [setHeader, getHeader, hk]
  | cons p rest ih =>
    obtain ⟨n, w⟩ := p
    by_cases hn' : lower n = lower k'
    · simp only [setHeader, if_pos hn']
      simp only [getHeader, if_neg hk]
      rw [getHeader_eraseHeader_ne k k' hk rest]
      simp only [getHeader, if_neg (fun e => hk (hn'.symm.trans e))]
    · simp only [setHeader, if_neg hn', getHeader]
      by_cases hn : lower n = lower k
      · simp [if_pos hn]
      · simp only [if_neg hn]
        exact ih

theorem filter_eraseHeader (Q : Str × Str → Bool) (k : Str)
    (hQ : ∀ n w : Str, lower n = lower k → Q (n, w) = false) :
    ∀ hs : Headers, List.filter Q (eraseHeader k hs) = List.filter Q hs := by
  intro hs
  induction hs with
  | nil => rfl
  | cons p rest ih =>
    obtain ⟨n, w⟩ := p
    by_cases hn : lower n = lower k
    · simp only [eraseHeader, if_pos hn, List.filter_cons, hQ n w hn]
      simpa using ih
    · simp only [eraseHeader, if_neg hn, List.filter_cons]
      rw [ih]

theorem filter_setHeader (Q : Str × Str → Bool) (k v : Str)
    (hQ : ∀ n w : Str, lower n = lower k → Q (n, w) = false) :
    ∀ hs : Headers, List.filter Q (setHeader hs k v) = List.filter Q hs := by
  intro hs
  induction hs with
  | nil => simp [setHeader, List.filter_cons, hQ k v rfl]
  | cons p rest ih =>
    obtain ⟨n, w⟩ := p
    by_cases hn : lower n = lower k
    · simp only [setHeader, if_pos hn, List.filter_cons, hQ k v rfl, hQ n w hn]
      simpa using filter_eraseHeader Q k hQ rest
    · simp only [setHeader, if_neg hn, List.filter_cons]
      rw [ih]

/-- Unfolding of the `response()` loop over the four concrete entries. -/
theorem injectHeaders_eq (hs : Headers) :
    injectHeaders hs =
      setHeader (setHeader (setHeader (setHeader hs cspName cspValue)
        xfoName xfoValue) xctoName xctoValue) rpName rpValue := rfl

/-- The four security-header names are pairwise distinct after
case-normalisation. -/
theorem secNames_distinct :
    lower cspName ≠ lower xfoName ∧ lower cspName ≠ lower xctoName ∧
    lower cspName ≠ lower rpName ∧ lower xfoName ≠ lower xctoName ∧
    lower xfoName ≠ lower rpName ∧ lower xctoName ≠ lower rpName := by
  decide

theorem injectHeaders_isSetTo (hs : Headers) (k v : Str)
    (h : (k, v) ∈ SECURITY_HEADERS) : isSetTo k v (injectHeaders hs) = true := by
  rw [injectHeaders_eq]
  have d := secNames_distinct
  simp only [SECURITY_HEADERS, List.mem_cons, List.not_mem_nil, or_false,
    Prod.mk.injEq] at h
  rcases h with ⟨rfl, rfl⟩ | ⟨rfl, rfl⟩ | ⟨rfl, rfl⟩ | ⟨rfl, rfl⟩
  · exact isSetTo_setHeader_ne _ _ _ _ d.2.2.1 _
      (isSetTo_setHeader_ne _ _ _ _ d.2.1 _
        (isSetTo_setHeader_ne _ _ _ _ d.1 _ (setHeader_isSetTo _ _ hs)))
  · exact isSetTo_setHeader_ne _ _ _ _ d.2.2.2.2.1 _
      (isSetTo_setHeader_ne _ _ _ _ d.2.2.2.1 _ (setHeader_isSetTo _ _ _))
  · exact isSetTo_setHeader_ne _ _ _ _ d.2.2.2.2.2 _ (setHeader_isSetTo _ _ _)
  · exact setHeader_isSetTo _ _ _

theorem injectHeaders_idem (hs : Headers) :
    injectHeaders (injectHeaders hs) = injectHeaders hs := by
  have h1 : isSetTo cspName cspValue (injectHeaders hs) = true :=
    injectHeaders_isSetTo hs _ _ (by simp [SECURITY_HEADERS])
  have h2 : isSetTo xfoName xfoValue (injectHeaders hs) = true :=
    injectHeaders_isSetTo hs _ _ (by simp [SECURITY_HEADERS])
  have h3 : isSetTo xctoName xctoValue (injectHeaders hs) = true :=
    injectHeaders_isSetTo hs _ _ (by simp [SECURITY_HEADERS])
  have h4 : isSetTo rpName rpValue (injectHeaders hs) = true :=
    injectHeaders_isSetTo hs _ _ (by simp [SECURITY_HEADERS])
  rw [injectHeaders_eq (injectHeaders hs), setHeader_of_isSetTo _ _ _ h1,
    setHeader_of_isSetTo _ _ _ h2, setHeader_of_isSetTo _ _ _ h3,
    setHeader_of_isSetTo _ _ _ h4]

theorem getHeader_injectHeaders_ne (hs : Headers) (name : Str)
    (hn : securityName name = false) :
    getHeader (injectHeaders hs) name = getHeader hs name := by
  rw [injectHeaders_eq]
  simp only [securityName, SECURITY_HEADERS, List.any_cons, List.any_nil,
    Bool.or_false, Bool.or_eq_false_iff, beq_eq_false_iff_ne, ne_eq] at hn
  obtain ⟨e1, e2, e3, e4⟩ := hn
  rw [getHeader_setHeader_ne name rpName rpValue e4 _,
      getHeader_setHeader_ne name xctoName xctoValue e3 _,
      getHeader_setHeader_ne name xfoName xfoValue e2 _,
      getHeader_setHeader_ne name cspName cspValue e1 _]

theorem securityName_congr (k n : Str) (hk : securityName k = true)
    (hnw : lower n = lower k) : securityName n = true := by
  simp only [securityName, List.any_eq_true, beq_iff_eq] at hk ⊢
  obtain ⟨kv, hkv, e⟩ := hk
  exact ⟨kv, hkv, e.trans hnw.symm⟩

theorem filter_injectHeaders (hs : Headers) :
    (injectHeaders hs).filter (fun p => !(securityName p.1)) =
      hs.filter (fun p => !(securityName p.1)) := by
  have mk : ∀ k : Str, securityName k = true → ∀ n w : Str, lower n = lower k →
      (fun p : Str × Str => !(securityName p.1)) (n, w) = false := by
    intro k hk n w hnw
    simp [securityName_congr k n hk hnw]
  rw [injectHeaders_eq,
      filter_setHeader _ rpName rpValue (mk rpName (by decide)) _,
      filter_setHeader _ xctoName xctoValue (mk xctoName (by decide)) _,
      filter_setHeader _ xfoName xfoValue (mk xfoName (by decide)) _,
      filter_setHeader _ cspName cspValue (mk cspName (by decide)) _]

/-! ## Prefix lemmas -/

theorem startswith_nil (s : Str) : startswith s [] = true := by
  cases s <;> rfl

theorem startswith_append (a : Str) : ∀ s b : Str,
    startswith s (a ++ b) = true → startswith s a = true := by
  induction a with
  | nil =>
    intro s b _
    exact startswith_nil s
  | cons d a ih =>
    intro s b h
    cases s with
    | nil => simp [startswith] at h
    | cons c s =>
      simp only [List.cons_append, startswith] at h ⊢
      by_cases hcd : c = d
      · rw [if_pos hcd] at h ⊢
        exact ih s b h
      · rw [if_neg hcd] at h
        exact absurd h (by simp)

/-! ## Branch lemmas for the request callback -/

theorem request_routed_locally (f : Flow)
    (h : (request f).2 = some RoutingDecision.RoutedToLocal) :
    (request f).1.locally_routed = true := by
  by_cases h1 : f.host = CLOUDFRONT_DOMAIN
  · by_cases h2 : startswith f.path apiRoute = true
    · simp [request, h1, h2] at h
    · by_cases h3 : classify_ui UI_ROUTES f.path = true
      · simp [request, h1, h2, h3]
      · simp [request, h1, h2, h3] at h
  · simp [request, h1] at h

theorem request_not_routed (f : Flow)
    (h : (request f).2 ≠ some RoutingDecision.RoutedToLocal) :
    (request f).1 = f := by
  by_cases h1 : f.host = CLOUDFRONT_DOMAIN
  · by_cases h2 : startswith f.path apiRoute = true
    · simp [request, h1, h2]
    · by_cases h3 : classify_ui UI_ROUTES f.path = true
      · exact absurd (by simp [request, h1, h2, h3]) h
      · simp [request, h1, h2, h3]
  · simp [request, h1]

theorem request_some_decision (f : Flow) (h1 : f.host = CLOUDFRONT_DOMAIN) :
    ∃ d : RoutingDecision, (request f).2 = some d := by
  by_cases h2 : startswith f.path apiRoute = true
  · exact ⟨RoutingDecision.PassthroughApi, by simp [request, h1, h2]⟩
  · by_cases h3 : classify_ui UI_ROUTES f.path = true
    · exact ⟨RoutingDecision.RoutedToLocal, by simp [request, h1, h2, h3]⟩
    · exact ⟨RoutingDecision.PassthroughOther, by simp [request, h1, h2, h3]⟩

/-! ## Claims -/

/-- C1: the spec claims that a request to the production domain whose path
matches neither the `/api/` prefix nor any `UI_ROUTES` entry (in
particular the path `/callback?code=abc`) passes through unmodified with
decision `PassthroughOther`.  The code contradicts this at exactly that
input: the table entry `"/"` is tested with `startswith`, so it
prefix-matches every path, hence `/callback?code=abc` is classified as a
UI route, the flow is rewritten to the local server and the decision is
`RoutedToLocal`.  This also contradicts the source's own comments, which
present the final branch as the one handling OAuth callbacks such as
`/callback`. -/
theorem C1_callback_rewritten :
    classify_ui UI_ROUTES callbackFlow.path = true ∧
    (request callbackFlow).2 = some RoutingDecision.RoutedToLocal ∧
    (request callbackFlow).1.host = LOCAL_SERVER_HOST ∧
    (request callbackFlow).1.port = LOCAL_SERVER_PORT ∧
    (request callbackFlow).1.scheme = localScheme ∧
    (request callbackFlow).1 ≠ callbackFlow := by
  decide

/-- C2: on the production domain, a non-`/api/` path that equals or is
prefixed by some `UI_ROUTES` entry is rewritten to the local backend
(scheme `http`, host `localhost`, port 8080), the Host header after the
rewrite equals the value captured before the rewrite (defaulting to the
production domain when absent), and the decision is `RoutedToLocal`. -/
theorem C2_ui_route_rewrite (f : Flow)
    (h1 : f.host = CLOUDFRONT_DOMAIN)
    (h2 : startswith f.path apiRoute = false)
    (h3 : classify_ui UI_ROUTES f.path = true) :
    (request f).1.scheme = localScheme ∧
    (request f).1.host = LOCAL_SERVER_HOST ∧
    (request f).1.port = LOCAL_SERVER_PORT ∧
    getHeader (request f).1.requestHeaders hostHeaderName =
      some ((getHeader f.requestHeaders hostHeaderName).getD CLOUDFRONT_DOMAIN) ∧
    (request f).2 = some RoutingDecision.RoutedToLocal := by
  simp [request, h1, h2, h3, getHeader_setHeader_self]

/-- Witness for C2 at Scenario 1: the catalogue path on the production
domain, with the Host header present. -/
theorem C2_witness :
    (request catalogueFlow).1.scheme = localScheme ∧
    (request catalogueFlow).1.host = LOCAL_SERVER_HOST ∧
    (request catalogueFlow).1.port = LOCAL_SERVER_PORT ∧
    getHeader (request catalogueFlow).1.requestHeaders hostHeaderName =
      some ((getHeader catalogueFlow.requestHeaders hostHeaderName).getD CLOUDFRONT_DOMAIN) ∧
    (request catalogueFlow).2 = some RoutingDecision.RoutedToLocal :=
  C2_ui_route_rewrite catalogueFlow (by decide) (by decide) (by decide)

/-- C3: after `request()`, exactly one decision is set when the target host
equals the production domain and none is set otherwise; and `response()`
never transitions the stored routing state (the `locally_routed` tag), so
a decision, once set, is never changed by the response callback. -/
theorem C3_decision_states (f : Flow) :
    (f.host = CLOUDFRONT_DOMAIN → ∃! d : RoutingDecision, (request f).2 = some d) ∧
    (f.host ≠ CLOUDFRONT_DOMAIN → (request f).2 = none) ∧
    (∀ g : Flow, (response g).locally_routed = g.locally_routed) := by
  refine ⟨fun h1 => ?_, fun h1 => by simp [request, h1], fun g => ?_⟩
  · obtain ⟨d, hd⟩ := request_some_decision f h1
    exact ⟨d, hd, fun y hy => by rw [hd] at hy; exact (Option.some.inj hy).symm⟩
  · by_cases hg : g.locally_routed = true
    · simp [response, hg]
    · simp [response, hg]

/-- Witness for C3: an in-domain flow receives a unique decision. -/
theorem C3_witness : ∃! d : RoutingDecision, (request apiFlow).2 = some d :=
  (C3_decision_states apiFlow).1 (by decide)

/-- C4: on the production domain, a path starting with the literal prefix
`/api/` leaves the flow unmodified with decision `PassthroughApi`. -/
theorem C4_api_passthrough (f : Flow)
    (h1 : f.host = CLOUDFRONT_DOMAIN)
    (h2 : startswith f.path apiRoute = true) :
    (request f).1 = f ∧ (request f).2 = some RoutingDecision.PassthroughApi := by
  simp [request, h1, h2]

/-- Witness for C4 at Scenario 2: the path `/api/v1/sessions`. -/
theorem C4_witness :
    (request apiFlow).1 = apiFlow ∧
    (request apiFlow).2 = some RoutingDecision.PassthroughApi :=
  C4_api_passthrough apiFlow (by decide) (by decide)

/-- C5: a request whose target host differs from the production domain is
left completely unchanged and the decision stays unset. -/
theorem C5_foreign_host_untouched (f : Flow)
    (h : f.host ≠ CLOUDFRONT_DOMAIN) :
    (request f).1 = f ∧ (request f).2 = none := by
  simp [request, h]

/-- Witness for C5 at Scenario 4: host `other.example.com`, path `/`. -/
theorem C5_witness :
    (request otherHostFlow).1 = otherHostFlow ∧ (request otherHostFlow).2 = none :=
  C5_foreign_host_untouched otherHostFlow (by decide)

/-- C6: on a `RoutedToLocal` flow, for every entry of `SECURITY_HEADERS`,
after `response()` the response header of that name holds exactly the
configured value - it is the first and only entry with that name
(overwritten, not appended) - whatever response headers the local backend
produced. -/
theorem C6_security_headers_overwritten (f : Flow) (resp : Headers) (k v : Str)
    (hd : (request f).2 = some RoutingDecision.RoutedToLocal)
    (hm : (k, v) ∈ SECURITY_HEADERS) :
    getHeader (response (withResponse (request f).1 resp)).responseHeaders k = some v ∧
    isSetTo k v (response (withResponse (request f).1 resp)).responseHeaders = true := by
  have hl : (request f).1.locally_routed = true := request_routed_locally f hd
  have hresp : (response (withResponse (request f).1 resp)).responseHeaders =
      injectHeaders resp := by
    simp [response, withResponse, hl]
  rw [hresp]
  exact ⟨isSetTo_getHeader k v _ (injectHeaders_isSetTo resp k v hm),
    injectHeaders_isSetTo resp k v hm⟩

/-- Witness for C6 at Scenario 5: a backend response without a
Content-Security-Policy header carries the configured CSP string
verbatim afterwards. -/
theorem C6_witness :
    getHeader (response (withResponse (request catalogueFlow).1 sampleResp)).responseHeaders
      cspName = some cspValue ∧
    isSetTo cspName cspValue
      (response (withResponse (request catalogueFlow).1 sampleResp)).responseHeaders = true :=
  C6_security_headers_overwritten catalogueFlow sampleResp cspName cspValue
    (by decide) (by decide)

/-- C7: invoking `response()` twice on the same `RoutedToLocal` flow yields
exactly the flow (and hence header set) that one invocation yields. -/
theorem C7_response_idempotent (f : Flow) (resp : Headers)
    (hd : (request f).2 = some RoutingDecision.RoutedToLocal) :
    response (response (withResponse (request f).1 resp)) =
      response (withResponse (request f).1 resp) := by
  have hl : (request f).1.locally_routed = true := request_routed_locally f hd
  simp [response, withResponse, hl, injectHeaders_idem]

/-- Witness for C7 on the Scenario 1 flow with a sample backend response. -/
theorem C7_witness :
    response (response (withResponse (request catalogueFlow).1 sampleResp)) =
      response (withResponse (request catalogueFlow).1 sampleResp) :=
  C7_response_idempotent catalogueFlow sampleResp (by decide)

/-- C8: on a flow whose decision is `PassthroughApi`, `PassthroughOther`
or unset, `response()` adds, removes and modifies nothing: the flow is
returned unchanged.  (A fresh proxy flow carries no `locally_routed`
metadata, hence the `locally_routed = false` precondition.) -/
theorem C8_other_decisions_untouched (f : Flow) (resp : Headers)
    (h0 : f.locally_routed = false)
    (hd : (request f).2 ≠ some RoutingDecision.RoutedToLocal) :
    response (withResponse (request f).1 resp) = withResponse (request f).1 resp := by
  rw [request_not_routed f hd]
  simp [response, withResponse, h0]

/-- Witness for C8 on the Scenario 2 flow (decision `PassthroughApi`). -/
theorem C8_witness :
    response (withResponse (request apiFlow).1 sampleResp) =
      withResponse (request apiFlow).1 sampleResp :=
  C8_other_decisions_untouched apiFlow sampleResp (by decide) (by decide)

/-- C9: the `"/catalogue/"` entry of `UI_ROUTES` is redundant: the UI-route
classification over the full table equals the classification over the
table with that entry removed, because every path that equals or starts
with `/catalogue/` also starts with `/catalogue`. -/
theorem C9_catalogue_entry_redundant (p : Str) :
    classify_ui UI_ROUTES p = classify_ui UI_ROUTES_reduced p := by
  have hred : UI_ROUTES_reduced =
      ["/".toList, "/catalogue".toList, "/try".toList, "/assets/".toList] := by
    decide
  have habs : matches_route "/catalogue/".toList p = true →
      matches_route "/catalogue".toList p = true := by
    intro h
    simp only [matches_route, Bool.or_eq_true, beq_iff_eq] at h ⊢
    rcases h with h | h
    · right
      rw [← h]
      exact (by decide : startswith "/catalogue/".toList "/catalogue".toList = true)
    · right
      have e : ("/catalogue/".toList : Str) = "/catalogue".toList ++ "/".toList := by
        decide
      rw [e] at h
      exact startswith_append "/catalogue".toList p "/".toList h
  rw [hred]
  simp only [classify_ui, UI_ROUTES, List.any_cons, List.any_nil]
  cases hcat : matches_route "/catalogue".toList p
  · cases hcat2 : matches_route "/catalogue/".toList p
    · simp
    · exact absurd (habs hcat2) (by simp only [Bool.not_eq_true]; exact hcat)
  · simp

/-- Witness for C9 at the callback path. -/
theorem C9_witness :
    classify_ui UI_ROUTES "/callback?code=abc".toList =
      classify_ui UI_ROUTES_reduced "/callback?code=abc".toList :=
  C9_catalogue_entry_redundant _

/-- C10: on a `RoutedToLocal` flow, `response()` leaves unchanged the value
of every response header whose case-insensitive name is not a key of
`SECURITY_HEADERS`; the entries under non-security names are preserved
exactly, so only the four configured names are ever written. -/
theorem C10_non_security_headers_preserved (f : Flow) (resp : Headers) (name : Str)
    (hd : (request f).2 = some RoutingDecision.RoutedToLocal)
    (hn : securityName name = false) :
    getHeader (response (withResponse (request f).1 resp)).responseHeaders name =
      getHeader resp name ∧
    (response (withResponse (request f).1 resp)).responseHeaders.filter
        (fun p => !(securityName p.1)) =
      resp.filter (fun p => !(securityName p.1)) := by
  have hl : (request f).1.locally_routed = true := request_routed_locally f hd
  have hresp : (response (withResponse (request f).1 resp)).responseHeaders =
      injectHeaders resp := by
    simp [response, withResponse, hl]
  rw [hresp]
  exact ⟨getHeader_injectHeaders_ne resp name hn, filter_injectHeaders resp⟩

/-- Witness for C10: the backend's `set-cookie` header survives unchanged. -/
theorem C10_witness :
    getHeader (response (withResponse (request catalogueFlow).1 sampleResp)).responseHeaders
      "set-cookie".toList = getHeader sampleResp "set-cookie".toList ∧
    (response (withResponse (request catalogueFlow).1 sampleResp)).responseHeaders.filter
        (fun p => !(securityName p.1)) =
      sampleResp.filter (fun p => !(securityName p.1)) :=
  C10_non_security_headers_preserved catalogueFlow sampleResp "set-cookie".toList
    (by decide) (by decide)

end NdxAddon
